import Mathlib

/-!
Shallow embedding of the HabrParser crawler (src/parser/habr_parser.py,
src/database/database.py) and proofs about its error handling, crawl state
and persistence behaviour.

Modelling conventions:
  * A fetched, parsed page (the BeautifulSoup view of the response body) is a
    `Html` record carrying exactly the pieces the selectors in the source
    read: the text of the pagination marker, the hrefs of the article-title
    anchors, the `get_text`-rendered article body, and the raw texts of the
    comment-body paragraphs.
  * The network is a function `Net : String → Except FetchExc Html`: for each
    URL either the parsed page or the transport exception the awaited
    `session.get`/`response.text()` raises (after the retry layer).
  * Python exceptions that the embedded code can raise are the inductive
    `PyExc`; a helper returning `Except PyExc α` models a coroutine that
    either returns a value or lets an exception propagate.
  * The database is a function `DbEnv : String → ExecOutcome` giving, for
    each SQL command string, whether `cursor.execute` succeeds or raises
    `ProgrammingError`, `DataError`, or some other database error.
  * `asyncio.gather` is modelled deterministically: the tasks run in list
    order, every task runs to completion (a failing task does not cancel its
    siblings), and if any task raised, the first error is re-raised by the
    gather after all tasks have run.
-/

/-- The parsed view of a fetched page: the four pieces of the document the
source's CSS selectors read. `paginationText` is the `.text` of
`select_one("div.tm-pagination__pages > div:nth-child(3) > a:nth-child(1)")`
(`none` when the selector matches nothing), `titleAnchors` the `href`
attributes of `select("a.tm-title__link")` in document order, `articleBody`
the `get_text(separator="\n")` of `select_one("div.article-formatted-body")`
(`none` when absent), and `commentParas` the `.text` of each element of
`select("div.tm-comment__body-content_v2 p")` in document order. -/
structure Html where
  paginationText : Option String
  titleAnchors : List String
  articleBody : Option String
  commentParas : List String
deriving DecidableEq, Repr

/-- Transport-level failures an awaited `session.get` (with the retry layer
exhausted) can raise: `asyncio.TimeoutError`, `asyncio.CancelledError`, or an
`aiohttp` connection error. -/
inductive FetchExc where
  | timeout
  | cancelled
  | connError
deriving DecidableEq, Repr

/-- The network environment: for each URL, the parsed page or the transport
exception raised while fetching it. -/
def Net : Type := String → Except FetchExc Html

/-- Outcome of `cursor.execute(cmd)` in the storage layer: success, or one of
the exception classes `aiomysql` can raise (`pymysql.err.ProgrammingError`,
`pymysql.err.DataError`, or any other database error such as
`OperationalError`). -/
inductive ExecOutcome where
  | ok
  | progError
  | dataError
  | otherError
deriving DecidableEq, Repr

/-- The database environment: what `cursor.execute` does on each SQL command
string. -/
def DbEnv : Type := String → ExecOutcome

/-- Python exceptions the embedded coroutines can let propagate. -/
inductive PyExc where
  | timeoutError
  | cancelledError
  | connectionError
  | attributeError
  | valueError
  | typeError
  | dbOtherError
deriving DecidableEq, Repr

/-- Embeds Python's `str.strip()`: removes leading and trailing whitespace
characters. (Defined over the character list so the kernel can evaluate it;
`String.trim` is definitionally opaque to the kernel.) -/
def pyStrip (s : String) : String :=
  String.mk (((s.data.dropWhile Char.isWhitespace).reverse.dropWhile Char.isWhitespace).reverse)

/-- Embeds Python's `int(s)` on the page-number strings the parser meets:
surrounding whitespace is ignored, a non-empty digit string parses to its
value, anything else raises `ValueError` (modelled `none`). -/
def pyInt? (s : String) : Option Nat :=
  let t := ((s.data.dropWhile Char.isWhitespace).reverse.dropWhile Char.isWhitespace).reverse
  if t ≠ [] ∧ t.all Char.isDigit then
    some (t.foldl (fun acc ch => 10 * acc + (ch.toNat - 48)) 0)
  else none

/-- Embeds Python's `comment.replace("'", "''")` (database.py line 91): every
single-quote character becomes two single quotes, every other character is
kept unchanged, in order. -/
def doubleQuotes (s : String) : String :=
  String.mk (s.data.flatMap fun ch => if ch = '\'' then ['\'', '\''] else [ch])

/-- Text of the SQL template before the interpolated comment in
`Comments.load_comments` (database.py lines 88-91). -/
def sqlInsertPre : String :=
  "\n            INSERT INTO comments (text_comment)\n            VALUES ('"

/-- Text of the SQL template after the interpolated comment. -/
def sqlInsertPost : String := "');\n            "

/-- The SQL command `Comments.load_comments` builds for one comment
(database.py lines 88-92): the triple-quoted INSERT template with the
quote-escaped comment substituted for `{}`. -/
def insertCmd (comment : String) : String :=
  sqlInsertPre ++ doubleQuotes comment ++ sqlInsertPost

/-- Embeds `SqlTable._input_cmd` (database.py lines 58-72): executes the
command; on success returns the cursor (modelled `true`); on
`ProgrammingError` or `DataError` swallows the exception and returns `None`
(modelled `false`); any other database exception propagates. -/
def input_cmd (db : DbEnv) (cmd : String) : Except PyExc Bool :=
  match db cmd with
  | .ok => .ok true
  | .progError => .ok false
  | .dataError => .ok false
  | .otherError => .error .dbOtherError

/-- Embeds `Comments.load_comments` (database.py lines 81-93): for each
comment in order, builds the INSERT command and runs it through
`_input_cmd`. Returns the comments whose insert actually executed
successfully (the persisted records); an uncaught database exception
propagates. -/
def load_comments (db : DbEnv) (comments : List String) : Except PyExc (List String) :=
  match comments with
  | [] => .ok []
  | c :: rest =>
    match input_cmd db (insertCmd c) with
    | .error e => .error e
    | .ok inserted =>
      match load_comments db rest with
      | .error e => .error e
      | .ok l => .ok (if inserted then c :: l else l)

/-- Embeds `HabrParser._get_last_page` (habr_parser.py lines 113-132): fetch
the index URL, read the pagination marker's text, convert it with `int`.
`TimeoutError`/`CancelledError` are caught (a warning is logged and the
coroutine falls off the end, returning `None`); a connection error is not in
the except clause and propagates; an absent marker makes `.text` on `None`
raise `AttributeError` (uncaught); a non-numeric marker makes `int` raise
`ValueError` (uncaught). -/
def get_last_page (net : Net) (url : String) : Except PyExc (Option Nat) :=
  match net url with
  | .error .timeout => .ok none
  | .error .cancelled => .ok none
  | .error .connError => .error .connectionError
  | .ok html =>
    match html.paginationText with
    | none => .error .attributeError
    | some t =>
      match pyInt? t with
      | none => .error .valueError
      | some n => .ok (some n)

/-- The page-URL list comprehension in `parsing_blog` (habr_parser.py line
66): `[f"{main_url}page{i}/" for i in range(1, last_page + 1)]`. -/
def pageLinks (main_url : String) (last_page : Nat) : List String :=
  (List.range' 1 last_page).map fun i => main_url ++ "page" ++ toString i ++ "/"

/-- Embeds `HabrParser._get_articles_links` (habr_parser.py lines 134-154)
acting on the accumulator `self.articles_links` (passed in and returned as
`links`): fetch the page, collect `https://habr.com{href}` for every
article-title anchor in document order, and extend the accumulator.
`TimeoutError`/`CancelledError` are caught (warning logged, accumulator
untouched); a connection error propagates. -/
def get_articles_links (net : Net) (links : List String) (page_url : String) :
    Except PyExc (List String) :=
  match net page_url with
  | .error .timeout => .ok links
  | .error .cancelled => .ok links
  | .error .connError => .error .connectionError
  | .ok html =>
    .ok (links ++ html.titleAnchors.map fun href => "https://habr.com" ++ href)

/-- Embeds `HabrParser._get_text_from_article` (habr_parser.py lines
156-174): fetch the article page, take the body container's text, strip it,
and persist it through `load_comments`. Returns the records persisted by this
task. `TimeoutError`/`CancelledError` are caught (warning logged, nothing
persisted); a connection error propagates; an absent body container makes
`get_text` on `None` raise `AttributeError` (uncaught); an uncaught database
error from `load_comments` also propagates. -/
def get_text_from_article (net : Net) (db : DbEnv) (article_page : String) :
    Except PyExc (List String) :=
  match net article_page with
  | .error .timeout => .ok []
  | .error .cancelled => .ok []
  | .error .connError => .error .connectionError
  | .ok html =>
    match html.articleBody with
    | none => .error .attributeError
    | some body =>
      load_comments db [pyStrip body]

/-- Embeds `HabrParser._get_text_from_comments` (habr_parser.py lines
176-194): fetch the comment page, strip each matched comment-body paragraph
independently, and persist the list through `load_comments` (one record per
paragraph). Returns the records persisted by this task.
`TimeoutError`/`CancelledError` are caught (warning logged, nothing
persisted); a connection error propagates; an uncaught database error
propagates. -/
def get_text_from_comments (net : Net) (db : DbEnv) (comment_url : String) :
    Except PyExc (List String) :=
  match net comment_url with
  | .error .timeout => .ok []
  | .error .cancelled => .ok []
  | .error .connError => .error .connectionError
  | .ok html =>
    load_comments db (html.commentParas.map pyStrip)

/-- The transient crawl state held on the `HabrParser` instance
(habr_parser.py lines 50-51): the accumulated article-link and comment-link
lists, initialised empty in `__init__` and never cleared afterwards. -/
structure CrawlState where
  articles_links : List String
  comments_links : List String
deriving DecidableEq, Repr

/-- The gather over `_get_articles_links` tasks in `parsing_blog`
(habr_parser.py lines 67-70): every task runs (a failing task does not
cancel its siblings), each successful task extends the shared accumulator in
task order, and the first uncaught task exception, if any, is re-raised by
the gather. Returns the final accumulator and that optional exception. -/
def gather_articles_links (net : Net) (links : List String) (page_urls : List String) :
    List String × Option PyExc :=
  match page_urls with
  | [] => (links, none)
  | url :: rest =>
    match get_articles_links net links url with
    | .ok links' => gather_articles_links net links' rest
    | .error e =>
      let (links'', _) := gather_articles_links net links rest
      (links'', some e)

/-- The gather over `_get_text_from_article` tasks in `parsing_articles`
(habr_parser.py line 81): every task runs, the persisted records of the
successful tasks are collected in task order, and the first uncaught task
exception, if any, is re-raised by the gather. -/
def gather_articles_text (net : Net) (db : DbEnv) (articles_urls : List String) :
    List String × Option PyExc :=
  match articles_urls with
  | [] => ([], none)
  | url :: rest =>
    let (ps, e') := gather_articles_text net db rest
    match get_text_from_article net db url with
    | .ok recs => (recs ++ ps, e')
    | .error e => (ps, some e)

/-- The gather over `_get_text_from_comments` tasks in `parsing_comments`
(habr_parser.py line 103): same shape as the article-text gather. -/
def gather_comments_text (net : Net) (db : DbEnv) (comments_urls : List String) :
    List String × Option PyExc :=
  match comments_urls with
  | [] => ([], none)
  | url :: rest =>
    let (ps, e') := gather_comments_text net db rest
    match get_text_from_comments net db url with
    | .ok recs => (recs ++ ps, e')
    | .error e => (ps, some e)

/-- Embeds `HabrParser.parsing_comments` (habr_parser.py lines 86-103):
fans out one `_get_text_from_comments` task per URL and awaits them all.
Returns the records persisted across all tasks, or the first uncaught task
exception. -/
def parsing_comments (net : Net) (db : DbEnv) (comments_urls : List String) :
    Except PyExc (List String) :=
  match gather_comments_text net db comments_urls with
  | (ps, none) => .ok ps
  | (_, some e) => .error e

/-- Embeds `HabrParser.parsing_articles` (habr_parser.py lines 72-84): fans
out one `_get_text_from_article` task per caller-supplied article URL; when
`parsing_comments` is requested, derives `{article_url}comments/` for every
article URL and runs the comment stage. Returns all persisted records, or
the first uncaught exception. -/
def parsing_articles (net : Net) (db : DbEnv) (articles_urls : List String)
    (parseComments : Bool) : Except PyExc (List String) :=
  match gather_articles_text net db articles_urls with
  | (_, some e) => .error e
  | (ps, none) =>
    if parseComments then
      match parsing_comments net db (articles_urls.map fun u => u ++ "comments/") with
      | .ok ps2 => .ok (ps ++ ps2)
      | .error e => .error e
    else
      .ok ps

/-- Result of a completed `parsing_blog` run: the final instance state, the
article URLs that were fed to `parsing_articles` (the fetch list of stage B),
and every record persisted during the run, in the deterministic task order of
the gather model. -/
structure RunResult where
  finalState : CrawlState
  fetchedArticles : List String
  persisted : List String
deriving DecidableEq, Repr

/-- Embeds `HabrParser.parsing_blog` (habr_parser.py lines 54-70) on an
instance whose crawl state is `st`: discover the last page, build the page
URL list `[f"{main_url}page{i}/" for i in range(1, last_page + 1)]`, gather
the link-collection tasks into `self.articles_links`, then run
`parsing_articles(*self.articles_links, parsing_comments=True)`. When
`_get_last_page` fell through its except clause and returned `None`, the
expression `range(1, last_page + 1)` evaluates `None + 1` and raises
`TypeError`. -/
def parsing_blog (net : Net) (db : DbEnv) (st : CrawlState) (main_url : String) :
    Except PyExc RunResult :=
  match get_last_page net main_url with
  | .error e => .error e
  | .ok none => .error .typeError
  | .ok (some last_page) =>
    match gather_articles_links net st.articles_links (pageLinks main_url last_page) with
    | (_, some e) => .error e
    | (links, none) =>
      let st' : CrawlState := { st with articles_links := links }
      match parsing_articles net db st'.articles_links true with
      | .error e => .error e
      | .ok ps => .ok ⟨st', st'.articles_links, ps⟩

/-- Retry policy handed to the third-party retrying fetcher by
`HabrParser.__init__` (habr_parser.py lines 45-49): maximum attempt count,
retryable status set, and the exponential-backoff parameters (delay before
the next attempt after 0-based attempt `k` is `base * factor ^ k`). -/
structure RetryPolicy where
  attempts : Nat
  statuses : List Nat
  base : Nat
  factor : Nat
deriving DecidableEq, Repr

/-- Outcome of one whole retrying fetch: a successful response, or the last
retryable-status response surfaced as a terminal result after the attempt
budget is exhausted (returned, not raised). -/
inductive RetryOutcome where
  | success (status : Nat)
  | terminalFailure (status : Nat)
deriving DecidableEq, Repr

/-- Modelled from the spec: the retry loop of the third-party retrying
fetch client configured in `HabrParser.__init__` (the `aiohttp_retry`
`RetryClient`/`ExponentialRetry` code is not part of this repository).
Attempt number `k` (0-based) receives response status `respond k`; a status
in the retryable set with budget remaining sleeps `base * factor ^ k` and
retries; a retryable status with the budget exhausted is surfaced as a
terminal failure result rather than raised; any other status is a success.
`fuel` is the number of attempts still allowed. Returns the outcome, the
number of attempts performed, and the backoff delays slept. -/
def retryGo (p : RetryPolicy) (respond : Nat → Nat) (k : Nat) :
    Nat → RetryOutcome × Nat × List Nat
  | 0 => (.terminalFailure (respond k), 0, [])
  | fuel + 1 =>
    let s := respond k
    if s ∈ p.statuses then
      if fuel = 0 then
        (.terminalFailure s, 1, [])
      else
        let r := retryGo p respond (k + 1) fuel
        (r.1, r.2.1 + 1, (p.base * p.factor ^ k) :: r.2.2)
    else
      (.success s, 1, [])

/-- Modelled from the spec: one retrying fetch under policy `p`, starting at
attempt 0 with the full attempt budget. -/
def retryFetch (p : RetryPolicy) (respond : Nat → Nat) : RetryOutcome × Nat × List Nat :=
  retryGo p respond 0 p.attempts

/-- Inverse used to state that quote escaping is otherwise lossless: collapse
every `''` pair back to a single `'`, leaving other characters alone. -/
def undoubleQuotes : List Char → List Char
  | [] => []
  | [c] => [c]
  | c :: d :: rest =>
    if c = '\'' ∧ d = '\'' then '\'' :: undoubleQuotes rest
    else c :: undoubleQuotes (d :: rest)

/-- The article links contributed by one pass of link-collection tasks over
`page_urls`: for each page fetched successfully, the prefixed hrefs of its
article-title anchors in document order; a failed fetch contributes
nothing. -/
def linksCollected (net : Net) : List String → List String
  | [] => []
  | url :: rest =>
    (match net url with
     | .ok html => html.titleAnchors.map fun href => "https://habr.com" ++ href
     | .error _ => []) ++ linksCollected net rest

/-- When every insert command executes cleanly, `load_comments` persists all
its arguments, in order, as separate records. -/
theorem load_comments_all_ok (db : DbEnv) (hdb : ∀ cmd, db cmd = .ok)
    (comments : List String) : load_comments db comments = .ok comments := by
  induction comments with
  | nil => rfl
  | cons c rest ih => simp [load_comments, input_cmd, hdb, ih]

/-- The accumulator after the link-collection gather is the incoming
accumulator extended by exactly the links collected in this pass. -/
theorem gather_articles_links_fst (net : Net) (page_urls : List String) :
    ∀ links, (gather_articles_links net links page_urls).1 =
      links ++ linksCollected net page_urls := by
  induction page_urls with
  | nil => intro links; simp [gather_articles_links, linksCollected]
  | cons url rest ih =>
    intro links
    cases hnet : net url with
    | ok html =>
      simp [gather_articles_links, get_articles_links, hnet, linksCollected, ih]
    | error e =>
      cases e <;>
        simp [gather_articles_links, get_articles_links, hnet, linksCollected, ih]

/-- Quote escaping is lossless: collapsing the doubled quotes recovers the
original character list exactly. -/
theorem undouble_double (l : List Char) :
    undoubleQuotes (l.flatMap fun ch => if ch = '\'' then ['\'', '\''] else [ch]) = l := by
  induction l with
  | nil => rfl
  | cons c rest ih =>
    by_cases hc : c = '\''
    · subst hc
      simpa [undoubleQuotes] using ih
    · simp only [List.flatMap_cons, if_neg hc, List.singleton_append]
      cases hrest : rest.flatMap fun ch => if ch = '\'' then ['\'', '\''] else [ch] with
      | nil =>
        rw [hrest] at ih
        simp [undoubleQuotes, ← ih]
      | cons d t =>
        rw [hrest] at ih
        simp [undoubleQuotes, hc, ih]

/-- Quote escaping exactly doubles the number of single-quote characters. -/
theorem count_double (l : List Char) :
    ((l.flatMap fun ch => if ch = '\'' then ['\'', '\''] else [ch]).count '\'') =
      2 * l.count '\'' := by
  induction l with
  | nil => rfl
  | cons c rest ih =>
    by_cases hc : c = '\''
    · subst hc; simp [List.count_cons, ih]; ring
    · simp [List.count_cons, hc, ih]

/-- C10: for every comment string passed to `load_comments`, the generated
SQL INSERT statement is the fixed template around the escaped comment, the
escaping doubles every single-quote character (the quote count doubles
exactly), and it is otherwise lossless (collapsing the doubled quotes
recovers the comment unchanged). -/
theorem C10_insert_statement_escapes_quotes (comment : String) :
    insertCmd comment = sqlInsertPre ++ doubleQuotes comment ++ sqlInsertPost ∧
    undoubleQuotes (doubleQuotes comment).data = comment.data ∧
    (doubleQuotes comment).data.count '\'' = 2 * comment.data.count '\'' :=
  ⟨rfl, undouble_double comment.data, count_double comment.data⟩

/-- C3: when every append failure in a `load_comments` call is of the kinds
the sink swallows (`ProgrammingError` or `DataError`), the call returns
normally (nothing propagates to the caller), and the records persisted are
exactly those whose own insert command succeeds — each record's fate depends
only on its own insert, so one record's failure does not affect the
others. -/
theorem C3_sink_swallows_append_failures (db : DbEnv) (comments : List String)
    (h : ∀ c ∈ comments, db (insertCmd c) ≠ .otherError) :
    load_comments db comments =
      .ok (comments.filter fun c => decide (db (insertCmd c) = .ok)) := by
  induction comments with
  | nil => rfl
  | cons c rest ih =>
    have hc : db (insertCmd c) ≠ .otherError := h c (List.mem_cons_self c rest)
    have hrest := ih fun x hx => h x (List.mem_cons_of_mem c hx)
    cases hdb : db (insertCmd c) with
    | ok => simp [load_comments, input_cmd, hdb, hrest, List.filter_cons]
    | progError => simp [load_comments, input_cmd, hdb, hrest, List.filter_cons]
    | dataError => simp [load_comments, input_cmd, hdb, hrest, List.filter_cons]
    | otherError => exact absurd hdb hc

/-- Witness for C3: with a database that rejects the middle record's insert
with `ProgrammingError` and accepts the others, `load_comments` returns
normally and persists exactly the first and third records. -/
theorem C3_sink_swallows_append_failures_witness :
    load_comments
      (fun cmd => if cmd = insertCmd "b" then .progError else .ok)
      ["a", "b", "c"] = .ok ["a", "c"] := by
  have h := C3_sink_swallows_append_failures
    (fun cmd => if cmd = insertCmd "b" then .progError else .ok)
    ["a", "b", "c"] (by decide)
  rw [h]
  exact congrArg Except.ok (by decide)

/-- C9: on a successfully fetched comment page with a database that accepts
every insert, comment extraction yields one trimmed string per matched
comment-body paragraph and each is persisted as a separate record, one
record per paragraph; zero matched paragraphs yield an empty list and no
error. -/
theorem C9_comment_extraction_per_paragraph (net : Net) (db : DbEnv)
    (comment_url : String) (html : Html)
    (hnet : net comment_url = .ok html) (hdb : ∀ cmd, db cmd = .ok) :
    get_text_from_comments net db comment_url = .ok (html.commentParas.map pyStrip) ∧
    (html.commentParas.map pyStrip).length = html.commentParas.length ∧
    (html.commentParas = [] → get_text_from_comments net db comment_url = .ok []) := by
  have hload := load_comments_all_ok db hdb
  exact ⟨by simp [get_text_from_comments, hnet, hload], by simp,
    fun hz => by simp [get_text_from_comments, hnet, hload, hz]⟩

/-- Witness for C9: a page with two paragraphs, one needing trimming, yields
the two trimmed records; a page with none yields the empty list. -/
theorem C9_comment_extraction_per_paragraph_witness :
    get_text_from_comments (fun _ => .ok ⟨none, [], none, ["  a  ", "b"]⟩)
      (fun _ => .ok) "u" = .ok ["a", "b"] ∧
    get_text_from_comments (fun _ => .ok ⟨none, [], none, []⟩)
      (fun _ => .ok) "u" = .ok [] := by
  refine ⟨?_, ?_⟩
  · have h := C9_comment_extraction_per_paragraph
      (fun _ => .ok ⟨none, [], none, ["  a  ", "b"]⟩) (fun _ => .ok) "u"
      ⟨none, [], none, ["  a  ", "b"]⟩ rfl (fun _ => rfl)
    rw [h.1]
    rfl
  · have h := C9_comment_extraction_per_paragraph
      (fun _ => .ok ⟨none, [], none, []⟩) (fun _ => .ok) "u"
      ⟨none, [], none, []⟩ rfl (fun _ => rfl)
    exact h.2.2 rfl

/-- C8: on a successfully fetched index page with `M` article-title anchors,
the link-collection task extends the accumulator by exactly `M` URLs, each
the anchor's href prefixed with the site origin, in document order. -/
theorem C8_link_extraction_prefixes_all_anchors (net : Net) (links : List String)
    (page_url : String) (html : Html) (hnet : net page_url = .ok html) :
    get_articles_links net links page_url =
      .ok (links ++ html.titleAnchors.map fun href => "https://habr.com" ++ href) ∧
    (html.titleAnchors.map fun href => "https://habr.com" ++ href).length =
      html.titleAnchors.length ∧
    (∀ i, i < html.titleAnchors.length →
      (html.titleAnchors.map fun href => "https://habr.com" ++ href)[i]? =
        (html.titleAnchors[i]?).map fun href => "https://habr.com" ++ href) := by
  refine ⟨?_, by simp, fun i hi => ?_⟩
  · simp [get_articles_links, hnet]
  · simp [List.getElem?_map]

/-- Witness for C8: a page with two anchors contributes exactly the two
prefixed URLs, in order, after the existing accumulator. -/
theorem C8_link_extraction_prefixes_all_anchors_witness :
    get_articles_links (fun _ => .ok ⟨none, ["/x/", "/y/"], none, []⟩)
      ["old"] "u" = .ok ["old", "https://habr.com/x/", "https://habr.com/y/"] := by
  have h := C8_link_extraction_prefixes_all_anchors
    (fun _ => .ok ⟨none, ["/x/", "/y/"], none, []⟩) ["old"] "u"
    ⟨none, ["/x/", "/y/"], none, []⟩ rfl
  rw [h.1]
  rfl

/-- C7: for every discovered last-page number `N ≥ 1`, the orchestrator
builds exactly `N` page URLs, the `i`-th (0-based) being
`{index}page{i+1}/`, in increasing order of the page number; in particular
last page 3 yields exactly `…page1/`, `…page2/`, `…page3/`. -/
theorem C7_page_url_list (main_url : String) (n : Nat) (h : 1 ≤ n) :
    (pageLinks main_url n).length = n ∧
    (∀ i, i < n →
      (pageLinks main_url n)[i]? = some (main_url ++ "page" ++ toString (i + 1) ++ "/")) ∧
    pageLinks main_url 3 =
      [main_url ++ "page1/", main_url ++ "page2/", main_url ++ "page3/"] := by
  refine ⟨by simp [pageLinks], fun i hi => ?_, ?_⟩
  · simp [pageLinks, List.getElem?_range', hi, Nat.add_comm]
  · have h1 : ("page" : String) ++ toString (1 : Nat) ++ "/" = "page1/" := by decide
    have h2 : ("page" : String) ++ toString (2 : Nat) ++ "/" = "page2/" := by decide
    have h3 : ("page" : String) ++ toString (3 : Nat) ++ "/" = "page3/" := by decide
    simp [pageLinks, List.range', String.append_assoc, ← h1, ← h2, ← h3]

/-- Witness for C7: the index URL of run.py with last page 3. -/
theorem C7_page_url_list_witness :
    (pageLinks "https://habr.com/ru/companies/ru_mts/articles/" 3).length = 3 ∧
    pageLinks "https://habr.com/ru/companies/ru_mts/articles/" 3 =
      ["https://habr.com/ru/companies/ru_mts/articles/page1/",
       "https://habr.com/ru/companies/ru_mts/articles/page2/",
       "https://habr.com/ru/companies/ru_mts/articles/page3/"] := by
  have h := C7_page_url_list "https://habr.com/ru/companies/ru_mts/articles/" 3 (by decide)
  refine ⟨h.1, ?_⟩
  rw [h.2.2]
  decide

/-- On a configuration whose every response status is retryable, the retry
loop started at attempt `k` with positive fuel performs exactly `fuel`
attempts, sleeping the exponential backoff delay after each non-final one,
and surfaces the last response as a terminal failure. -/
theorem retryGo_all_retryable (p : RetryPolicy) (respond : Nat → Nat)
    (hall : ∀ j, respond j ∈ p.statuses) :
    ∀ fuel k, 0 < fuel →
      retryGo p respond k fuel =
        (.terminalFailure (respond (k + fuel - 1)), fuel,
          (List.range (fuel - 1)).map fun i => p.base * p.factor ^ (k + i)) := by
  intro fuel
  induction fuel with
  | zero => intro k hk; omega
  | succ f ih =>
    intro k _
    cases f with
    | zero => simp [retryGo, hall k]
    | succ f' =>
      have hrec := ih (k + 1) (Nat.succ_pos f')
      have step : retryGo p respond k (f' + 1 + 1) =
          (if respond k ∈ p.statuses then
            if f' + 1 = 0 then (.terminalFailure (respond k), 1, [])
            else
              ((retryGo p respond (k + 1) (f' + 1)).1,
               (retryGo p respond (k + 1) (f' + 1)).2.1 + 1,
               (p.base * p.factor ^ k) :: (retryGo p respond (k + 1) (f' + 1)).2.2)
          else (.success (respond k), 1, [])) := rfl
      rw [step, if_pos (hall k), if_neg (Nat.succ_ne_zero f'), hrec]
      have e1 : k + 1 + (f' + 1) - 1 = k + (f' + 1 + 1) - 1 := by omega
      have e3 : (List.range (f' + 1 + 1 - 1)).map (fun i => p.base * p.factor ^ (k + i)) =
          p.base * p.factor ^ k ::
            (List.range (f' + 1 - 1)).map fun i => p.base * p.factor ^ (k + 1 + i) := by
        simp only [Nat.add_sub_cancel, List.range_succ_eq_map, List.map_cons, List.map_map]
        refine congrArg₂ List.cons (by simp) ?_
        refine List.map_congr_left fun i _ => ?_
        simp only [Function.comp, Nat.succ_eq_add_one]
        ring_nf
      rw [e1, e3]

/-- C4: for every retry policy with `N` max attempts (`N ≥ 1`) and a fetch
whose response status is always in the retryable set, the fetcher performs
exactly `N` attempts, sleeping the exponential-backoff delay
`base * factor ^ k` after each non-final attempt `k`, and then returns the
last response as a terminal failure rather than raising. -/
theorem C4_retry_exhaustion (p : RetryPolicy) (respond : Nat → Nat)
    (hpos : 0 < p.attempts) (hall : ∀ j, respond j ∈ p.statuses) :
    retryFetch p respond =
      (.terminalFailure (respond (p.attempts - 1)), p.attempts,
        (List.range (p.attempts - 1)).map fun i => p.base * p.factor ^ i) := by
  have h := retryGo_all_retryable p respond hall p.attempts 0 hpos
  rw [retryFetch, h]
  simp

/-- Witness for C4: three attempts against a server that always answers 500,
with backoff base 1 and factor 2: three attempts, delays 1 and 2, then a
terminal failure carrying status 500. -/
theorem C4_retry_exhaustion_witness :
    retryFetch ⟨3, [500], 1, 2⟩ (fun _ => 500) =
      (.terminalFailure 500, 3, [1, 2]) := by
  have h := C4_retry_exhaustion ⟨3, [500], 1, 2⟩ (fun _ => 500)
    (by decide) (fun j => by simp)
  rw [h]
  decide

/-- C1: contrary to the spec, a failed page discovery does not let the run
proceed toward Done: `_get_last_page` catches the timeout or cancellation,
logs a warning and implicitly returns `None`, and `parsing_blog` then
evaluates `range(1, last_page + 1)`, where `None + 1` raises `TypeError` —
the run crashes instead of completing with zero pages. -/
theorem C1_discovery_failure_crashes :
    parsing_blog (fun _ => .error .timeout) (fun _ => .ok) ⟨[], []⟩
      "https://habr.com/ru/companies/ru_mts/articles/" = .error .typeError ∧
    parsing_blog (fun _ => .error .cancelled) (fun _ => .ok) ⟨[], []⟩
      "https://habr.com/ru/companies/ru_mts/articles/" = .error .typeError :=
  ⟨rfl, rfl⟩

/-- Counterexample for C2: a connection error is not in the except clause of
any fetch task, so it propagates out of the task (aborting the gather)
instead of becoming a terminal per-task result. -/
theorem C2_connection_error_propagates_cex :
    get_articles_links (fun _ => .error .connError) []
      "https://habr.com/ru/companies/ru_mts/articles/page1/" = .error .connectionError ∧
    get_text_from_article (fun _ => .error .connError) (fun _ => .ok)
      "https://habr.com/ru/articles/1/" = .error .connectionError ∧
    get_text_from_comments (fun _ => .error .connError) (fun _ => .ok)
      "https://habr.com/ru/articles/1/comments/" = .error .connectionError :=
  ⟨rfl, rfl, rfl⟩

/-- C2 (amended): only timeout and cancellation become terminal per-task
results — the task returns normally, logs, and contributes nothing
downstream (no links appended, nothing persisted); a connection error is not
caught at the task boundary and propagates out of the task. -/
theorem C2_transport_failure_isolation (net : Net) (db : DbEnv)
    (links : List String) (url : String) :
    ((net url = .error .timeout ∨ net url = .error .cancelled) →
      get_articles_links net links url = .ok links ∧
      get_text_from_article net db url = .ok [] ∧
      get_text_from_comments net db url = .ok []) ∧
    (net url = .error .connError →
      get_articles_links net links url = .error .connectionError ∧
      get_text_from_article net db url = .error .connectionError ∧
      get_text_from_comments net db url = .error .connectionError) := by
  constructor
  · rintro (h | h) <;>
      exact ⟨by simp [get_articles_links, h], by simp [get_text_from_article, h],
        by simp [get_text_from_comments, h]⟩
  · intro h
    exact ⟨by simp [get_articles_links, h], by simp [get_text_from_article, h],
      by simp [get_text_from_comments, h]⟩

/-- Witness for C2 (amended): a timed-out fetch leaves the accumulator
untouched and persists nothing, in every stage. -/
theorem C2_transport_failure_isolation_witness :
    get_articles_links (fun _ => .error .timeout) ["prev"] "u" = .ok ["prev"] ∧
    get_text_from_article (fun _ => .error .timeout) (fun _ => .ok) "u" = .ok [] ∧
    get_text_from_comments (fun _ => .error .timeout) (fun _ => .ok) "u" = .ok [] :=
  (C2_transport_failure_isolation (fun _ => .error .timeout) (fun _ => .ok)
    ["prev"] "u").1 (Or.inl rfl)

/-- Counterexample for C5: an index page without the pagination marker makes
`_get_last_page` raise `AttributeError` (`.text` on `None`), which its
except clause does not catch — the markup mismatch is not treated as an
unknown page count, and the whole run crashes with it. -/
theorem C5_markup_mismatch_not_caught_cex :
    get_last_page (fun _ => .ok ⟨none, [], none, []⟩)
      "https://habr.com/ru/companies/ru_mts/articles/" = .error .attributeError ∧
    get_last_page (fun _ => .ok ⟨none, [], none, []⟩)
      "https://habr.com/ru/companies/ru_mts/articles/" ≠ .ok none ∧
    parsing_blog (fun _ => .ok ⟨none, [], none, []⟩) (fun _ => .ok) ⟨[], []⟩
      "https://habr.com/ru/companies/ru_mts/articles/" = .error .attributeError := by
  refine ⟨rfl, ?_, rfl⟩
  intro h
  exact absurd h (by simp [get_last_page, pyInt?])

/-- C5 (amended): a markup mismatch is caught nowhere. At page discovery an
absent pagination marker raises `AttributeError` uncaught, exactly as an
absent article-body container does in the article stage; an absent
comment-body selector raises nothing at all — it yields zero paragraphs,
hence an empty record list, without error. -/
theorem C5_markup_mismatch_propagation (net : Net) (db : DbEnv) (url : String)
    (html : Html) (hnet : net url = .ok html) :
    (html.paginationText = none → get_last_page net url = .error .attributeError) ∧
    (html.articleBody = none → get_text_from_article net db url = .error .attributeError) ∧
    (html.commentParas = [] → get_text_from_comments net db url = .ok []) := by
  refine ⟨fun h1 => ?_, fun h2 => ?_, fun h3 => ?_⟩
  · simp [get_last_page, hnet, h1]
  · simp [get_text_from_article, hnet, h2]
  · simp [get_text_from_comments, hnet, h3, load_comments]

/-- Witness for C5 (amended): concrete pages missing each selector. -/
theorem C5_markup_mismatch_propagation_witness :
    get_last_page (fun _ => .ok ⟨none, [], some "b", ["p"]⟩) "u" = .error .attributeError ∧
    get_text_from_article (fun _ => .ok ⟨some "1", [], none, []⟩) (fun _ => .ok) "u" =
      .error .attributeError ∧
    get_text_from_comments (fun _ => .ok ⟨some "1", [], some "b", []⟩) (fun _ => .ok) "u" =
      .ok [] := by
  refine ⟨?_, ?_, ?_⟩
  · exact (C5_markup_mismatch_propagation (fun _ => .ok ⟨none, [], some "b", ["p"]⟩)
      (fun _ => .ok) "u" ⟨none, [], some "b", ["p"]⟩ rfl).1 rfl
  · exact (C5_markup_mismatch_propagation (fun _ => .ok ⟨some "1", [], none, []⟩)
      (fun _ => .ok) "u" ⟨some "1", [], none, []⟩ rfl).2.1 rfl
  · exact (C5_markup_mismatch_propagation (fun _ => .ok ⟨some "1", [], some "b", []⟩)
      (fun _ => .ok) "u" ⟨some "1", [], some "b", []⟩ rfl).2.2 rfl

/-- Counterexample for C6: `articles_links` is initialised in `__init__` and
never cleared, so a second `parsing_blog` run on the same instance feeds the
article-fetch stage the carried-over link of the previous run in addition to
the one extracted in this invocation — not exactly this invocation's
links. -/
theorem C6_links_carry_over_cex :
    (parsing_blog (fun _ => .ok ⟨some "1", ["/new/"], some "t", []⟩) (fun _ => .ok)
        ⟨["https://habr.com/old/"], []⟩ "U").map RunResult.fetchedArticles =
      .ok ["https://habr.com/old/", "https://habr.com/new/"] ∧
    (parsing_blog (fun _ => .ok ⟨some "1", ["/new/"], some "t", []⟩) (fun _ => .ok)
        ⟨[], []⟩ "U").map RunResult.fetchedArticles =
      .ok ["https://habr.com/new/"] ∧
    (["https://habr.com/old/", "https://habr.com/new/"] : List String) ≠
      ["https://habr.com/new/"] :=
  ⟨rfl, rfl, by decide⟩

/-- C6 (amended): on a completed run the article URLs fed to the
article-fetch stage are the instance's previously accumulated links followed
by exactly the links extracted during this invocation; only on a fresh
instance (empty accumulator) are they exactly this invocation's links. -/
theorem C6_fetched_articles_accumulator (net : Net) (db : DbEnv) (st : CrawlState)
    (url : String) (n : Nat) (r : RunResult)
    (hlp : get_last_page net url = .ok (some n))
    (hrun : parsing_blog net db st url = .ok r) :
    r.fetchedArticles = st.articles_links ++ linksCollected net (pageLinks url n) ∧
    (st.articles_links = [] →
      r.fetchedArticles = linksCollected net (pageLinks url n)) := by
  unfold parsing_blog at hrun
  rw [hlp] at hrun
  dsimp only at hrun
  rcases hg : gather_articles_links net st.articles_links (pageLinks url n) with ⟨links, e⟩
  rw [hg] at hrun
  cases e with
  | some e => simp at hrun
  | none =>
    have hfst := gather_articles_links_fst net (pageLinks url n) st.articles_links
    rw [hg] at hfst
    simp only at hrun
    cases hpa : parsing_articles net db links true with
    | error e => rw [hpa] at hrun; simp at hrun
    | ok ps =>
      rw [hpa] at hrun
      simp only [Except.ok.injEq] at hrun
      have hra : r.fetchedArticles = links := by rw [← hrun]
      have hlinks : links = st.articles_links ++ linksCollected net (pageLinks url n) := hfst
      exact ⟨by rw [hra, hlinks], fun hempty => by rw [hra, hlinks, hempty]; simp⟩

/-- Witness for C6 (amended): a fresh instance crawling a one-page blog with
one article feeds exactly that page's extracted link. -/
theorem C6_fetched_articles_accumulator_witness :
    (⟨⟨["https://habr.com/new/"], []⟩, ["https://habr.com/new/"], ["t"]⟩ :
        RunResult).fetchedArticles =
      ([] : List String) ++
        linksCollected (fun _ => .ok ⟨some "1", ["/new/"], some "t", []⟩)
          (pageLinks "U" 1) ∧
    (([] : List String) = [] →
      (⟨⟨["https://habr.com/new/"], []⟩, ["https://habr.com/new/"], ["t"]⟩ :
          RunResult).fetchedArticles =
        linksCollected (fun _ => .ok ⟨some "1", ["/new/"], some "t", []⟩)
          (pageLinks "U" 1)) :=
  C6_fetched_articles_accumulator (fun _ => .ok ⟨some "1", ["/new/"], some "t", []⟩)
    (fun _ => .ok) ⟨[], []⟩ "U" 1
    ⟨⟨["https://habr.com/new/"], []⟩, ["https://habr.com/new/"], ["t"]⟩ rfl rfl
